import Mathlib

/-!
Shallow embedding of the TestSphere test-execution core.

The embedding covers the execution-lifecycle engine of the repository:
the in-memory entity store (`MemStorage` in server/storage.ts), the
relational store (`DbStorage` in the same file) where claims compare the
two, and the HTTP handlers that drive the lifecycle
(POST /api/test-cases/:id/run, POST /api/test-cases/:id/stop,
PUT /api/test-runs/:id in routes, and PUT /api/test-executions/:executionId
as it appears in pages/test-scenarios.tsx).

Modelling conventions:
- ids (`randomUUID()` in the source) are allocated from a counter `nextId`
  carried in the storage state;
- timestamps (`new Date()`) are integer milliseconds passed explicitly as
  `now` parameters; the random execution delay and the random pass/fail
  draw are likewise explicit parameters;
- JS `Map` objects are association lists in insertion order: `Map.set` of
  a fresh key appends, `Map.set` of an existing key replaces in place
  (modelled by `List.map` with an id test);
- a JS partial-update object is a structure of `Option` fields where
  `none` means the key is absent; a key that can be present with value
  `undefined`/`null` (the `endTime` key built by PUT /api/test-runs/:id)
  is an `Option (Option _)` field, because spreading an object whose key
  holds `undefined` still overwrites the target field;
- purely textual columns that no modelled operation reads or branches on
  (description, preconditions, testData, author, comments, ...) are
  elided from the record types.
-/

namespace TestSphere

/-- Activity feed entry types used by the in-memory store and by the
activity feed derived from test runs in the relational store. -/
inductive ActivityType
  | test_passed
  | test_failed
  | test_created
  | test_started
deriving DecidableEq, Repr

/-- Activity feed entry (shape returned by getRecentActivity). -/
structure Activity where
  id : Nat
  type : ActivityType
  testCaseName : String
  suiteName : Option String
  timestamp : Int
  message : String
deriving DecidableEq, Repr

/-- Test suite (schema.ts testSuites; textual description elided). -/
structure TestSuite where
  id : Nat
  name : String
  status : String
  createdAt : Int
  updatedAt : Int
deriving DecidableEq, Repr

/-- Test case (schema.ts testCases; fields the modelled operations touch). -/
structure TestCase where
  id : Nat
  name : Option String
  title : Option String
  suiteId : Option Nat
  priority : String
  executionStatus : String
  testSteps : Option String
  expectedResult : Option String
  module : Option String
  status : String
  lastRun : Option Int
  duration : Option Int
  createdAt : Int
  updatedAt : Int
deriving DecidableEq, Repr

/-- Test run (schema.ts testRuns, legacy lifecycle fields; `startTime` is
modelled as always present because the column defaults to now and
createTestRun always fills it). -/
structure TestRun where
  id : Nat
  testCaseId : Option Nat
  status : String
  startTime : Int
  endTime : Option Int
  duration : Option Int
  errorMessage : Option String
  createdAt : Int
deriving DecidableEq, Repr

/-- Test execution (schema.ts testExecutions). -/
structure TestExecution where
  id : Nat
  testRunId : Nat
  testCaseId : Nat
  actualResult : Option String
  executionStatus : String
  executedAt : Option Int
  evidenceUrl : Option String
deriving DecidableEq, Repr

/-- Defect (schema.ts defects; version/resolution columns elided). -/
structure Defect where
  id : Nat
  title : String
  description : Option String
  stepsToReproduce : Option String
  expectedResult : Option String
  actualResult : Option String
  severity : String
  priority : String
  status : String
  module : Option String
  environment : Option String
  reportedBy : String
  linkedTestCaseId : Option Nat
  linkedRequirementId : Option Nat
  dateReported : Int
deriving DecidableEq, Repr

/-- Shared store state. `timers` models the module-level
`runningTestTimers : Map<string, NodeJS.Timeout>` of routes as the set of
run ids that currently have a registered timer handle. -/
structure Storage where
  testSuites : List TestSuite
  testCases : List TestCase
  testRuns : List TestRun
  testExecutions : List TestExecution
  defects : List Defect
  activity : List Activity
  timers : List Nat
  nextId : Nat
deriving DecidableEq, Repr

/-- The empty store (no seed data). -/
def emptyStorage : Storage :=
  { testSuites := []
    testCases := []
    testRuns := []
    testExecutions := []
    defects := []
    activity := []
    timers := []
    nextId := 0 }

/-- JS template interpolation of a nullable string: null prints as
the string "null". -/
def jsShow : Option String → String
  | some s => s
  | none => "null"

/-- Legacy statuses that make updateTestCase stamp lastRun (the literal
list in both MemStorage.updateTestCase and DbStorage.updateTestCase). -/
def legacyRunStatuses : List String := ["running", "passed", "failed"]

/-- Partial update object accepted by storage.updateTestCase, restricted
to the keys its modelled callers ever pass. `none` means the key is
absent from the object. -/
structure TestCasePatch where
  status : Option String := none
  duration : Option Int := none
  executionStatus : Option String := none
deriving DecidableEq, Repr

/-- Condition shared by MemStorage.updateTestCase and
DbStorage.updateTestCase:
`testCase.status && ['running','passed','failed'].includes(testCase.status)`. -/
def stampsLastRun (p : TestCasePatch) : Bool :=
  match p.status with
  | some st => legacyRunStatuses.contains st
  | none => false

/-- Partial update object accepted by storage.updateTestRun.
`endTime := some none` models a present key holding `undefined` (the PUT
route always places an `endTime` key, possibly undefined, in the patch). -/
structure TestRunPatch where
  status : Option String := none
  endTime : Option (Option Int) := none
  errorMessage : Option (Option String) := none
deriving DecidableEq, Repr

/-- MemStorage.getTestCase. -/
def memGetTestCase (s : Storage) (id : Nat) : Option TestCase :=
  s.testCases.find? (fun tc => tc.id == id)

/-- MemStorage.getTestRun. -/
def memGetTestRun (s : Storage) (id : Nat) : Option TestRun :=
  s.testRuns.find? (fun tr => tr.id == id)

/-- MemStorage.addActivity: unshift an entry, then keep only the last 20. -/
def addActivity (s : Storage) (type : ActivityType) (tc : TestCase)
    (message : String) (now : Int) : Storage :=
  let suite := tc.suiteId.bind (fun sid => s.testSuites.find? (fun su => su.id == sid))
  let entry : Activity :=
    { id := s.nextId
      type := type
      testCaseName := tc.name.getD (tc.title.getD "Unnamed Test")
      suiteName := suite.map TestSuite.name
      timestamp := now
      message := message }
  let act := entry :: s.activity
  { s with
    nextId := s.nextId + 1
    activity := if act.length > 20 then act.take 20 else act }

/-- Application of an updateTestCase patch to the found record: spread
the patch fields, stamp updatedAt, and stamp lastRun when the incoming
status is running/passed/failed (the body shared verbatim by
MemStorage.updateTestCase and DbStorage.updateTestCase). -/
def applyCasePatch (existing : TestCase) (p : TestCasePatch) (now : Int) : TestCase :=
  let base : TestCase :=
    { existing with
      status := p.status.getD existing.status
      duration := match p.duration with
        | some d => some d
        | none => existing.duration
      executionStatus := p.executionStatus.getD existing.executionStatus
      updatedAt := now }
  if stampsLastRun p then { base with lastRun := some now } else base

/-- MemStorage.updateTestCase: spread the patch over the existing record,
stamp updatedAt, and when the incoming status is running/passed/failed
also stamp lastRun and push an activity entry. -/
def memUpdateTestCase (s : Storage) (id : Nat) (p : TestCasePatch)
    (now : Int) : Option TestCase × Storage :=
  match s.testCases.find? (fun tc => tc.id == id) with
  | none => (none, s)
  | some existing =>
    let updated := applyCasePatch existing p now
    let s1 :=
      if stampsLastRun p then
        match p.status with
        | some "passed" =>
          addActivity s .test_passed updated (jsShow updated.name ++ " passed") now
        | some "failed" =>
          addActivity s .test_failed updated (jsShow updated.name ++ " failed") now
        | some "running" =>
          addActivity s .test_started updated (jsShow updated.name ++ " running") now
        | _ => s
      else s
    (some updated,
      { s1 with testCases := s1.testCases.map (fun tc => if tc.id == id then updated else tc) })

/-- MemStorage.createTestRun: the insert schema omits endTime and
duration, and both POST handlers pass only testCaseId and status, so
startTime defaults to now, endTime and duration start null and
errorMessage starts null. -/
def memCreateTestRun (s : Storage) (testCaseId : Option Nat) (status : String)
    (now : Int) : TestRun × Storage :=
  let newTestRun : TestRun :=
    { id := s.nextId
      testCaseId := testCaseId
      status := status
      startTime := now
      endTime := none
      duration := none
      errorMessage := none
      createdAt := now }
  (newTestRun, { s with nextId := s.nextId + 1, testRuns := s.testRuns ++ [newTestRun] })

/-- Application of an updateTestRun patch to the found run: spread the
patch (a present-but-undefined endTime key overwrites the stored
endTime), then recompute duration as endTime minus startTime exactly
when the patch carries an actual endTime value
(`if (testRun.endTime && existing.startTime)`); shared by the in-memory
and relational updateTestRun bodies. -/
def applyRunPatch (existing : TestRun) (p : TestRunPatch) : TestRun :=
  let merged : TestRun :=
    { existing with
      status := p.status.getD existing.status
      endTime := match p.endTime with
        | some v => v
        | none => existing.endTime
      errorMessage := match p.errorMessage with
        | some v => v
        | none => existing.errorMessage }
  match p.endTime with
  | some (some e) => { merged with duration := some (e - existing.startTime) }
  | _ => merged

/-- MemStorage.updateTestRun on a found run, as a store transformer. -/
def memUpdateTestRun (s : Storage) (id : Nat) (p : TestRunPatch) :
    Option TestRun × Storage :=
  match s.testRuns.find? (fun tr => tr.id == id) with
  | none => (none, s)
  | some existing =>
    let updated := applyRunPatch existing p
    (some updated,
      { s with testRuns := s.testRuns.map (fun tr => if tr.id == id then updated else tr) })

/-- Insertion of a run into a list sorted by createdAt descending
(comparator `(a, b) => b.createdAt - a.createdAt`). -/
def insertRunByCreatedDesc (r : TestRun) : List TestRun → List TestRun
  | [] => [r]
  | x :: xs =>
    if r.createdAt > x.createdAt then r :: x :: xs else x :: insertRunByCreatedDesc r xs

/-- Sort runs by createdAt descending (Array.prototype.sort with the
comparator above). -/
def sortRunsByCreatedDesc : List TestRun → List TestRun
  | [] => []
  | x :: xs => insertRunByCreatedDesc x (sortRunsByCreatedDesc xs)

/-- MemStorage.getTestRunsByTestCase: filter by case id, newest first. -/
def memGetTestRunsByTestCase (s : Storage) (testCaseId : Nat) : List TestRun :=
  sortRunsByCreatedDesc (s.testRuns.filter (fun tr => tr.testCaseId == some testCaseId))

/-- Removal of a timer handle from the `runningTestTimers` map. -/
def removeTimer (timers : List Nat) (runId : Nat) : List Nat :=
  timers.filter (fun t => t != runId)

/-- Response of POST /api/test-cases/:id/run. -/
inductive RunResponse
  | ok (testRun : TestRun)
  | notFound
deriving DecidableEq, Repr

/-- POST /api/test-cases/:id/run up to the point where the handler
responds: create a run with status running, set the case status to
running, register the completion timer under the run id, and return the
created run; 404 when the case id does not resolve. The completion
callback scheduled here is `completionCallback` below. -/
def postRun (s : Storage) (caseId : Nat) (now : Int) : RunResponse × Storage :=
  match s.testCases.find? (fun tc => tc.id == caseId) with
  | none => (.notFound, s)
  | some testCase =>
    let (testRun, s1) := memCreateTestRun s (some testCase.id) "running" now
    let (_, s2) := memUpdateTestCase s1 testCase.id { status := some "running" } now
    let s3 := { s2 with timers := s2.timers ++ [testRun.id] }
    (.ok testRun, s3)

/-- Completion callback scheduled by POST /api/test-cases/:id/run.
`testPassed` is the 80 percent pass draw and `executionTime` the random
delay (already integral; `Math.round` on it is the identity in this
model). The callback re-reads the run: when it is missing or no longer
has status running it only deletes its timer handle and returns, writing
nothing. Otherwise it completes the run, copies the final status and the
duration to the case, and deletes the timer handle. The catch-all
fallback branch of the source is unreachable in this pure model because
no store call can throw. -/
def completionCallback (s : Storage) (runId : Nat) (caseId : Nat)
    (testPassed : Bool) (executionTime : Int) (now : Int) : Storage :=
  match memGetTestRun s runId with
  | none => { s with timers := removeTimer s.timers runId }
  | some currentRun =>
    if currentRun.status != "running" then
      { s with timers := removeTimer s.timers runId }
    else
      let finalStatus := if testPassed then "passed" else "failed"
      let (updatedRun?, s1) := memUpdateTestRun s runId
        { status := some finalStatus
          endTime := some (some now)
          errorMessage := some (if testPassed then none
            else some "Test execution failed due to assertion error") }
      let s2 := match updatedRun? with
        | some updatedRun =>
          -- `updatedRun.duration || Math.round(executionTime)`: JS || also
          -- falls back when the stored duration is 0
          let dur := match updatedRun.duration with
            | some d => if d != 0 then d else executionTime
            | none => executionTime
          (memUpdateTestCase s1 caseId
            { status := some finalStatus, duration := some dur } now).2
        | none => s1
      { s2 with timers := removeTimer s2.timers runId }

/-- Response of POST /api/test-cases/:id/stop. -/
inductive StopResponse
  | ok
  | notFound
deriving DecidableEq, Repr

/-- POST /api/test-cases/:id/stop: find the running run of the case
(newest first); when found, cancel its timer handle if one is registered
and mark the run aborted with endTime now; in every case reset the case
status to pending and respond ok; 404 when the case id does not resolve. -/
def postStop (s : Storage) (caseId : Nat) (now : Int) : StopResponse × Storage :=
  match s.testCases.find? (fun tc => tc.id == caseId) with
  | none => (.notFound, s)
  | some testCase =>
    let testRuns := memGetTestRunsByTestCase s testCase.id
    match testRuns.find? (fun tr => tr.status == "running") with
    | some runningTestRun =>
      let s1 := { s with timers := removeTimer s.timers runningTestRun.id }
      let (_, s2) := memUpdateTestRun s1 runningTestRun.id
        { status := some "aborted", endTime := some (some now) }
      let (_, s3) := memUpdateTestCase s2 testCase.id { status := some "pending" } now
      (.ok, s3)
    | none =>
      let (_, s1) := memUpdateTestCase s testCase.id { status := some "pending" } now
      (.ok, s1)

/-- Body of PUT /api/test-runs/:id after Zod validation: status is
required, endTime and errorMessage keys are present only when supplied. -/
structure PutRunBody where
  status : String
  endTime : Option Int := none
  errorMessage : Option String := none
deriving DecidableEq, Repr

/-- Response of PUT /api/test-runs/:id. -/
inductive PutRunResponse
  | ok (testRun : TestRun)
  | notFound
  | badRequest
deriving DecidableEq, Repr

/-- Statuses accepted by the Zod schema of PUT /api/test-runs/:id. -/
def putRunStatuses : List String := ["running", "passed", "failed", "aborted"]

/-- PUT /api/test-runs/:id: validate the status; update the run, where
the patch `\x7b...validatedData, endTime\x7d` always carries an endTime key
(undefined when the request had none, which overwrites the stored
endTime); 404 when the run is missing; otherwise cascade the new status
(and the duration, when non-null) to the linked case and return the run. -/
def putRun (s : Storage) (runId : Nat) (body : PutRunBody) (now : Int) :
    PutRunResponse × Storage :=
  if !(putRunStatuses.contains body.status) then
    (.badRequest, s)
  else
    let (testRun?, s1) := memUpdateTestRun s runId
      { status := some body.status
        endTime := some body.endTime
        errorMessage := body.errorMessage.map some }
    match testRun? with
    | none => (.notFound, s1)
    | some testRun =>
      let s2 := match testRun.testCaseId with
        | some tcId =>
          (memUpdateTestCase s1 tcId
            { status := some body.status, duration := testRun.duration } now).2
        | none => s1
      (.ok testRun, s2)

/-- Body of PUT /api/test-executions/:executionId (snake_case keys of the
request body; a `none` field means the key is absent). -/
structure PutExecutionBody where
  actual_result : Option String := none
  execution_status : Option String := none
  evidence_url : Option String := none
deriving DecidableEq, Repr

/-- Response of PUT /api/test-executions/:executionId. -/
inductive PutExecutionResponse
  | ok
  | badRequest
  | notFound
  | internalError
deriving DecidableEq, Repr

/-- Execution statuses accepted by PUT /api/test-executions/:executionId. -/
def validExecutionStatuses : List String :=
  ["pass", "fail", "blocked", "not_executed", "skip"]

/-- PUT /api/test-executions/:executionId as written in the source
(pages/test-scenarios.tsx). After validating execution_status and
resolving the execution, the handler builds a local object named
`executionUpdate` but then calls
`storage.updateTestExecution(executionId, executionUpdateData)`, and the
identifier `executionUpdateData` is defined nowhere in the file.
Evaluating it throws a ReferenceError which the outer catch converts into
a 500 response, so the update of the execution record, the defect
auto-creation and the 200 response are unreachable and the store is
never mutated. -/
def putExecution (s : Storage) (executionId : Nat) (body : PutExecutionBody) :
    PutExecutionResponse × Storage :=
  match body.execution_status with
  | none => (.badRequest, s)
  | some st =>
    if !(validExecutionStatuses.contains st) then
      (.badRequest, s)
    else
      match s.testExecutions.find? (fun e => e.id == executionId) with
      | none => (.notFound, s)
      | some _execution =>
        -- const executionUpdate = { actualResult, executionStatus,
        --   executedAt: new Date(), evidenceUrl };
        -- await storage.updateTestExecution(executionId, executionUpdateData);
        --   ReferenceError: executionUpdateData is not defined
        (.internalError, s)

/-- DbStorage.updateTestCase: same patch application and lastRun stamping
as the in-memory variant, but no activity entry is pushed (the relational
store has no activity log). An UPDATE matching no row returns no record
and leaves the table unchanged. -/
def dbUpdateTestCase (s : Storage) (id : Nat) (p : TestCasePatch)
    (now : Int) : Option TestCase × Storage :=
  match s.testCases.find? (fun tc => tc.id == id) with
  | none => (none, s)
  | some existing =>
    let updated := applyCasePatch existing p now
    (some updated,
      { s with testCases := s.testCases.map (fun tc => if tc.id == id then updated else tc) })

/-- Insert payload for createTestCase, restricted to the modelled fields;
a `none` field means the key is absent from the payload. -/
structure InsertTestCase where
  name : Option String := none
  title : Option String := none
  suiteId : Option Nat := none
  priority : Option String := none
  executionStatus : Option String := none
  testSteps : Option String := none
  expectedResult : Option String := none
  module : Option String := none
  status : Option String := none
deriving DecidableEq, Repr

/-- MemStorage.createTestCaseSync: build the record with defaults, append
it, and unshift a test_created activity entry. Note the source tests
`testCase.status !== 'pending'` on the raw input, so an absent status
(which stores as "pending") still initialises lastRun and a random
duration; `randDuration` is that random draw. -/
def memCreateTestCase (s : Storage) (input : InsertTestCase) (now : Int)
    (randDuration : Int) : TestCase × Storage :=
  let notPending : Bool := match input.status with
    | some st => st != "pending"
    | none => true
  let newTestCase : TestCase :=
    { id := s.nextId
      name := input.name
      title := input.title
      suiteId := input.suiteId
      priority := input.priority.getD "medium"
      executionStatus := input.executionStatus.getD "not_executed"
      testSteps := input.testSteps
      expectedResult := input.expectedResult
      module := input.module
      status := input.status.getD "pending"
      lastRun := if notPending then some now else none
      duration := if notPending then some randDuration else none
      createdAt := now
      updatedAt := now }
  let s1 := { s with nextId := s.nextId + 1, testCases := s.testCases ++ [newTestCase] }
  let suite := input.suiteId.bind (fun sid => s1.testSuites.find? (fun su => su.id == sid))
  let caseName := input.name.getD (input.title.getD "Unnamed Test")
  let entry : Activity :=
    { id := s1.nextId
      type := .test_created
      testCaseName := caseName
      suiteName := suite.map TestSuite.name
      timestamp := now
      message := "New test case created: \"" ++ caseName ++ "\"" }
  (newTestCase,
    { s1 with nextId := s1.nextId + 1, activity := entry :: s1.activity })

/-- DbStorage.createTestCase: insert the row with the same column
defaults; lastRun and duration are not part of the insert and start null;
no activity entry exists in the relational store. -/
def dbCreateTestCase (s : Storage) (input : InsertTestCase) (now : Int) :
    TestCase × Storage :=
  let newTestCase : TestCase :=
    { id := s.nextId
      name := input.name
      title := input.title
      suiteId := input.suiteId
      priority := input.priority.getD "medium"
      executionStatus := input.executionStatus.getD "not_executed"
      testSteps := input.testSteps
      expectedResult := input.expectedResult
      module := input.module
      status := input.status.getD "pending"
      lastRun := none
      duration := none
      createdAt := now
      updatedAt := now }
  (newTestCase, { s with nextId := s.nextId + 1, testCases := s.testCases ++ [newTestCase] })

/-- Dashboard statistics record. -/
structure DashboardStats where
  totalTests : Nat
  passedTests : Nat
  failedTests : Nat
  runningTests : Nat
  pendingTests : Nat
deriving DecidableEq, Repr

/-- MemStorage.getDashboardStats: count test cases by legacy status. -/
def memGetDashboardStats (s : Storage) : DashboardStats :=
  let testCases := s.testCases
  { totalTests := testCases.length
    passedTests := (testCases.filter (fun tc => tc.status == "passed")).length
    failedTests := (testCases.filter (fun tc => tc.status == "failed")).length
    runningTests := (testCases.filter (fun tc => tc.status == "running")).length
    pendingTests := (testCases.filter (fun tc => tc.status == "pending")).length }

/-- DbStorage.getDashboardStats: select all rows and count by status. -/
def dbGetDashboardStats (s : Storage) : DashboardStats :=
  let allTests := s.testCases
  { totalTests := allTests.length
    passedTests := (allTests.filter (fun tc => tc.status == "passed")).length
    failedTests := (allTests.filter (fun tc => tc.status == "failed")).length
    runningTests := (allTests.filter (fun tc => tc.status == "running")).length
    pendingTests := (allTests.filter (fun tc => tc.status == "pending")).length }

/-- Insertion of a suite into a list sorted by createdAt descending. -/
def insertSuiteByCreatedDesc (r : TestSuite) : List TestSuite → List TestSuite
  | [] => [r]
  | x :: xs =>
    if r.createdAt > x.createdAt then r :: x :: xs else x :: insertSuiteByCreatedDesc r xs

/-- Sort suites by createdAt descending (getTestSuites in both stores). -/
def sortSuitesByCreatedDesc : List TestSuite → List TestSuite
  | [] => []
  | x :: xs => insertSuiteByCreatedDesc x (sortSuitesByCreatedDesc xs)

/-- Rational model of `Math.round((passed / total) * 100)` for natural
passed and total with total positive: round half up. -/
def jsRoundPercent (passed total : Nat) : Nat :=
  (200 * passed + total) / (2 * total)

/-- Per-suite statistics record returned with the suite. -/
structure TestSuiteWithStats where
  suite : TestSuite
  totalTests : Nat
  passedTests : Nat
  failedTests : Nat
  runningTests : Nat
  passRate : Nat
deriving DecidableEq, Repr

/-- MemStorage.getTestSuitesWithStats: map over the sorted suites and
count member cases by status; passRate is 0 when the suite is empty. -/
def memGetTestSuitesWithStats (s : Storage) : List TestSuiteWithStats :=
  (sortSuitesByCreatedDesc s.testSuites).map (fun suite =>
    let suiteTests := s.testCases.filter (fun tc => tc.suiteId == some suite.id)
    let totalTests := suiteTests.length
    let passedTests := (suiteTests.filter (fun tc => tc.status == "passed")).length
    let failedTests := (suiteTests.filter (fun tc => tc.status == "failed")).length
    let runningTests := (suiteTests.filter (fun tc => tc.status == "running")).length
    let passRate := if totalTests > 0 then jsRoundPercent passedTests totalTests else 0
    { suite := suite
      totalTests := totalTests
      passedTests := passedTests
      failedTests := failedTests
      runningTests := runningTests
      passRate := passRate })

/-- DbStorage.getTestSuitesWithStats: a for loop over the sorted suites
accumulating the same per-suite counts. -/
def dbGetTestSuitesWithStats (s : Storage) : List TestSuiteWithStats :=
  (sortSuitesByCreatedDesc s.testSuites).foldl (fun result suite =>
    let suiteTests := s.testCases.filter (fun tc => tc.suiteId == some suite.id)
    let totalTests := suiteTests.length
    let passedTests := (suiteTests.filter (fun tc => tc.status == "passed")).length
    let failedTests := (suiteTests.filter (fun tc => tc.status == "failed")).length
    let runningTests := (suiteTests.filter (fun tc => tc.status == "running")).length
    let passRate := if totalTests > 0 then jsRoundPercent passedTests totalTests else 0
    result ++ [{ suite := suite
                 totalTests := totalTests
                 passedTests := passedTests
                 failedTests := failedTests
                 runningTests := runningTests
                 passRate := passRate }]) []

/-- MemStorage.getRecentActivity: return a copy of the activity log. -/
def memGetRecentActivity (s : Storage) : List Activity :=
  s.activity

/-- Insertion of a run into a list sorted by startTime descending. -/
def insertRunByStartDesc (r : TestRun) : List TestRun → List TestRun
  | [] => [r]
  | x :: xs =>
    if r.startTime > x.startTime then r :: x :: xs else x :: insertRunByStartDesc r xs

/-- Sort runs by startTime descending (orderBy desc startTime). -/
def sortRunsByStartDesc : List TestRun → List TestRun
  | [] => []
  | x :: xs => insertRunByStartDesc x (sortRunsByStartDesc xs)

/-- Name of the case joined to a run, when the run links a case. -/
def runCaseName (s : Storage) (run : TestRun) : Option (Option String) :=
  (run.testCaseId.bind (fun cid => s.testCases.find? (fun tc => tc.id == cid))).map
    TestCase.name

/-- JS truthiness of the joined `run.testCase?.name`. -/
def runCaseNameTruthy (s : Storage) (run : TestRun) : Bool :=
  match runCaseName s run with
  | some (some n) => n != ""
  | _ => false

/-- DbStorage.getRecentActivity: take the 20 most recent runs by
startTime, keep those whose joined case name is truthy, and classify each
by the run status (passed / failed / running, with a started fallback for
any other status); the entry reuses the run id. -/
def dbGetRecentActivity (s : Storage) : List Activity :=
  let recentRuns := (sortRunsByStartDesc s.testRuns).take 20
  (recentRuns.filter (fun run => runCaseNameTruthy s run)).map (fun run =>
    let testCase := run.testCaseId.bind
      (fun cid => s.testCases.find? (fun tc => tc.id == cid))
    let suite := testCase.bind (fun tc => tc.suiteId.bind
      (fun sid => s.testSuites.find? (fun su => su.id == sid)))
    let name := jsShow (testCase.bind TestCase.name)
    if run.status == "passed" then
      { id := run.id, type := .test_passed, testCaseName := name
        suiteName := suite.map TestSuite.name
        timestamp := run.endTime.getD run.startTime
        message := name ++ " passed" }
    else if run.status == "failed" then
      { id := run.id, type := .test_failed, testCaseName := name
        suiteName := suite.map TestSuite.name
        timestamp := run.endTime.getD run.startTime
        message := name ++ " failed" }
    else if run.status == "running" then
      { id := run.id, type := .test_started, testCaseName := name
        suiteName := suite.map TestSuite.name
        timestamp := run.startTime
        message := name ++ " running" }
    else
      { id := run.id, type := .test_started, testCaseName := name
        suiteName := suite.map TestSuite.name
        timestamp := run.startTime
        message := name ++ " started" })

theorem find?_map_replace {α : Type} (idOf : α → Nat) (l : List α) (c : Nat) (upd : α)
    (h : ∃ x ∈ l, idOf x = c) (hid : idOf upd = c) :
    (l.map (fun y => if idOf y == c then upd else y)).find? (fun y => idOf y == c)
      = some upd := by
  induction l with
  | nil => simp at h
  | cons a as ih =>
    rw [List.map_cons]
    by_cases ha : idOf a = c
    · rw [List.find?_cons_of_pos]
      · simp [ha]
      · simp [ha, hid]
    · have h' : ∃ x ∈ as, idOf x = c := by
        rcases h with ⟨x, hx, hxc⟩
        rcases List.mem_cons.mp hx with rfl | hx'
        · exact absurd hxc ha
        · exact ⟨x, hx', hxc⟩
      rw [List.find?_cons_of_neg]
      · exact ih h'
      · simp [ha]

theorem mem_insertRunByCreatedDesc {x r : TestRun} {l : List TestRun} :
    x ∈ insertRunByCreatedDesc r l ↔ x = r ∨ x ∈ l := by
  induction l with
  | nil => simp [insertRunByCreatedDesc]
  | cons a as ih =>
    simp only [insertRunByCreatedDesc]
    split
    · simp
    · simp [ih]
      tauto

theorem mem_sortRunsByCreatedDesc {x : TestRun} {l : List TestRun} :
    x ∈ sortRunsByCreatedDesc l ↔ x ∈ l := by
  induction l with
  | nil => simp [sortRunsByCreatedDesc]
  | cons a as ih => simp [sortRunsByCreatedDesc, mem_insertRunByCreatedDesc, ih]

theorem addActivity_testRuns (s : Storage) (type : ActivityType) (tc : TestCase)
    (message : String) (now : Int) :
    (addActivity s type tc message now).testRuns = s.testRuns := rfl

theorem memUpdateTestCase_testRuns (s : Storage) (id : Nat) (p : TestCasePatch)
    (now : Int) : ((memUpdateTestCase s id p now).2).testRuns = s.testRuns := by
  unfold memUpdateTestCase
  cases h : s.testCases.find? (fun tc => tc.id == id) with
  | none => rfl
  | some existing =>
    simp only []
    split
    · split <;> rfl
    · rfl

theorem memUpdateTestCase_timers (s : Storage) (id : Nat) (p : TestCasePatch)
    (now : Int) : ((memUpdateTestCase s id p now).2).timers = s.timers := by
  unfold memUpdateTestCase
  cases h : s.testCases.find? (fun tc => tc.id == id) with
  | none => rfl
  | some existing =>
    simp only []
    split
    · split <;> rfl
    · rfl

theorem memUpdateTestCase_defects (s : Storage) (id : Nat) (p : TestCasePatch)
    (now : Int) : ((memUpdateTestCase s id p now).2).defects = s.defects := by
  unfold memUpdateTestCase
  cases h : s.testCases.find? (fun tc => tc.id == id) with
  | none => rfl
  | some existing =>
    simp only []
    split
    · split <;> rfl
    · rfl

theorem memUpdateTestCase_testExecutions (s : Storage) (id : Nat) (p : TestCasePatch)
    (now : Int) :
    ((memUpdateTestCase s id p now).2).testExecutions = s.testExecutions := by
  unfold memUpdateTestCase
  cases h : s.testCases.find? (fun tc => tc.id == id) with
  | none => rfl
  | some existing =>
    simp only []
    split
    · split <;> rfl
    · rfl

theorem memUpdateTestCase_testSuites (s : Storage) (id : Nat) (p : TestCasePatch)
    (now : Int) : ((memUpdateTestCase s id p now).2).testSuites = s.testSuites := by
  unfold memUpdateTestCase
  cases h : s.testCases.find? (fun tc => tc.id == id) with
  | none => rfl
  | some existing =>
    simp only []
    split
    · split <;> rfl
    · rfl

theorem memUpdateTestRun_testCases (s : Storage) (id : Nat) (p : TestRunPatch) :
    ((memUpdateTestRun s id p).2).testCases = s.testCases := by
  unfold memUpdateTestRun
  cases h : s.testRuns.find? (fun tr => tr.id == id) <;> rfl

theorem memUpdateTestRun_activity (s : Storage) (id : Nat) (p : TestRunPatch) :
    ((memUpdateTestRun s id p).2).activity = s.activity := by
  unfold memUpdateTestRun
  cases h : s.testRuns.find? (fun tr => tr.id == id) <;> rfl

theorem memUpdateTestRun_defects (s : Storage) (id : Nat) (p : TestRunPatch) :
    ((memUpdateTestRun s id p).2).defects = s.defects := by
  unfold memUpdateTestRun
  cases h : s.testRuns.find? (fun tr => tr.id == id) <;> rfl

theorem memUpdateTestRun_found (s : Storage) (id : Nat) (p : TestRunPatch)
    (existing : TestRun)
    (h : s.testRuns.find? (fun tr => tr.id == id) = some existing) :
    memUpdateTestRun s id p
      = (some (applyRunPatch existing p),
         { s with testRuns := (s.testRuns.map
             (fun tr => if tr.id == id then applyRunPatch existing p else tr)) }) := by
  unfold memUpdateTestRun
  rw [h]

theorem memUpdateTestCase_nostamp (s : Storage) (id : Nat) (p : TestCasePatch)
    (now : Int) (existing : TestCase)
    (h : s.testCases.find? (fun tc => tc.id == id) = some existing)
    (hns : stampsLastRun p = false) :
    memUpdateTestCase s id p now
      = (some (applyCasePatch existing p now),
         { s with testCases := (s.testCases.map
             (fun tc => if tc.id == id then applyCasePatch existing p now else tc)) }) := by
  unfold memUpdateTestCase
  rw [h]
  simp [hns]

theorem memUpdateTestCase_fst (s : Storage) (id : Nat) (p : TestCasePatch)
    (now : Int) (existing : TestCase)
    (h : s.testCases.find? (fun tc => tc.id == id) = some existing) :
    (memUpdateTestCase s id p now).1 = some (applyCasePatch existing p now) := by
  unfold memUpdateTestCase
  rw [h]

theorem memUpdateTestCase_found_testCases (s : Storage) (id : Nat)
    (p : TestCasePatch) (now : Int) (existing : TestCase)
    (h : s.testCases.find? (fun tc => tc.id == id) = some existing) :
    ((memUpdateTestCase s id p now).2).testCases
      = s.testCases.map
          (fun tc => if tc.id == id then applyCasePatch existing p now else tc) := by
  unfold memUpdateTestCase
  rw [h]
  simp only []
  split
  · split <;> rfl
  · rfl

/-- Claim C1. For a TestRun r in flight for TestCase c, if stopExecution
(POST stop) runs before the scheduled delay elapses, then the completion
callback, when it fires, performs no write: the resulting store differs
from the post-stop store only by the removal of the timer handle, and the
status of r stays aborted, never becoming passed, failed or completed,
because the callback re-reads the run and is a no-op when the status is
no longer running. -/
theorem C1_stop_then_callback_is_noop
    (s : Storage) (c : Nat) (tc : TestCase) (r : TestRun)
    (t1 t2 executionTime : Int) (testPassed : Bool)
    (hc : s.testCases.find? (fun x => x.id == c) = some tc)
    (hr : (memGetTestRunsByTestCase s c).find? (fun tr => tr.status == "running")
        = some r) :
    (postStop s c t1).1 = .ok ∧
    (memGetTestRun (postStop s c t1).2 r.id).map TestRun.status = some "aborted" ∧
    completionCallback (postStop s c t1).2 r.id c testPassed executionTime t2
      = { (postStop s c t1).2 with
          timers := removeTimer ((postStop s c t1).2).timers r.id } ∧
    (memGetTestRun
        (completionCallback (postStop s c t1).2 r.id c testPassed executionTime t2)
        r.id).map TestRun.status = some "aborted" := by
  have tcid : tc.id = c := by simpa using List.find?_some hc
  have hrmem : r ∈ s.testRuns := by
    have h1 := List.mem_of_find?_eq_some hr
    have h2 : r ∈ s.testRuns.filter (fun tr => tr.testCaseId == some c) :=
      mem_sortRunsByCreatedDesc.mp h1
    exact List.mem_of_mem_filter h2
  obtain ⟨ex, hex⟩ : ∃ ex, s.testRuns.find? (fun tr => tr.id == r.id) = some ex := by
    have hs : (s.testRuns.find? (fun tr => tr.id == r.id)).isSome := by
      rw [List.find?_isSome]
      exact ⟨r, hrmem, by simp⟩
    exact Option.isSome_iff_exists.mp hs
  have hexid : ex.id = r.id := by simpa using List.find?_some hex
  have hrun : memUpdateTestRun { s with timers := removeTimer s.timers r.id } r.id
      { status := some "aborted", endTime := some (some t1) }
      = (some { ex with
                  status := "aborted"
                  endTime := some t1
                  duration := some (t1 - ex.startTime) },
         { s with
             timers := removeTimer s.timers r.id
             testRuns := s.testRuns.map (fun tr => if tr.id == r.id then
               { ex with
                   status := "aborted"
                   endTime := some t1
                   duration := some (t1 - ex.startTime) } else tr) }) := by
    unfold memUpdateTestRun
    rw [show ({ s with timers := removeTimer s.timers r.id } : Storage).testRuns
        = s.testRuns from rfl, hex]
    rfl
  have hpost : postStop s c t1
      = (.ok, (memUpdateTestCase
          { s with
              timers := removeTimer s.timers r.id
              testRuns := s.testRuns.map (fun tr => if tr.id == r.id then
                { ex with
                    status := "aborted"
                    endTime := some t1
                    duration := some (t1 - ex.startTime) } else tr) }
          tc.id { status := some "pending" } t1).2) := by
    unfold postStop
    rw [hc]
    simp only [tcid, hr, hrun]
  have hruns1 : ((postStop s c t1).2).testRuns
      = s.testRuns.map (fun tr => if tr.id == r.id then
          { ex with
              status := "aborted"
              endTime := some t1
              duration := some (t1 - ex.startTime) } else tr) := by
    rw [hpost]
    rw [memUpdateTestCase_testRuns]
  have hget1 : memGetTestRun (postStop s c t1).2 r.id
      = some { ex with
                 status := "aborted"
                 endTime := some t1
                 duration := some (t1 - ex.startTime) } := by
    unfold memGetTestRun
    rw [hruns1]
    exact find?_map_replace TestRun.id s.testRuns r.id _ ⟨r, hrmem, rfl⟩ hexid
  have hcb : completionCallback (postStop s c t1).2 r.id c testPassed executionTime t2
      = { (postStop s c t1).2 with
          timers := removeTimer ((postStop s c t1).2).timers r.id } := by
    unfold completionCallback
    rw [hget1]
    rfl
  refine ⟨by rw [hpost], by rw [hget1]; rfl, hcb, ?_⟩
  have : memGetTestRun
      (completionCallback (postStop s c t1).2 r.id c testPassed executionTime t2)
      r.id = memGetTestRun (postStop s c t1).2 r.id := by
    rw [hcb]; rfl
  rw [this, hget1]
  rfl

/-- Concrete test case (id 0) used by the C1 witness. -/
def c1Case : TestCase :=
  { id := 0
    name := some "Login"
    title := none
    suiteId := none
    priority := "medium"
    executionStatus := "not_executed"
    testSteps := none
    expectedResult := none
    module := none
    status := "running"
    lastRun := none
    duration := none
    createdAt := 0
    updatedAt := 0 }

/-- Concrete running run (id 1) of case 0 used by the C1 witness. -/
def c1Run : TestRun :=
  { id := 1
    testCaseId := some 0
    status := "running"
    startTime := 0
    endTime := none
    duration := none
    errorMessage := none
    createdAt := 0 }

/-- Concrete store for the C1 witness: one test case (id 0) with a
running run (id 1) whose timer is registered. -/
def c1Storage : Storage :=
  { emptyStorage with
      testCases := [c1Case]
      testRuns := [c1Run]
      timers := [1]
      nextId := 2 }

/-- Witness for C1: stop at time 5, callback fires at time 9 with a
passing draw, and the run stays aborted while the callback writes
nothing. -/
theorem C1_stop_then_callback_is_noop_witness :
    (postStop c1Storage 0 5).1 = .ok ∧
    (memGetTestRun (postStop c1Storage 0 5).2 c1Run.id).map TestRun.status
      = some "aborted" ∧
    completionCallback (postStop c1Storage 0 5).2 c1Run.id 0 true 3000 9
      = { (postStop c1Storage 0 5).2 with
          timers := removeTimer ((postStop c1Storage 0 5).2).timers c1Run.id } ∧
    (memGetTestRun
        (completionCallback (postStop c1Storage 0 5).2 c1Run.id 0 true 3000 9)
        c1Run.id).map TestRun.status = some "aborted" :=
  C1_stop_then_callback_is_noop c1Storage 0 c1Case c1Run 5 9 3000 true rfl rfl

/-- Concrete store for the C2 counterexample: the case already has a
running run when POST run is called again. -/
def c2Storage : Storage :=
  { emptyStorage with
      testCases := [{ id := 0
                      name := some "Login"
                      title := none
                      suiteId := none
                      priority := "medium"
                      executionStatus := "not_executed"
                      testSteps := none
                      expectedResult := none
                      module := none
                      status := "running"
                      lastRun := none
                      duration := none
                      createdAt := 0
                      updatedAt := 0 }]
      testRuns := [{ id := 1
                     testCaseId := some 0
                     status := "running"
                     startTime := 0
                     endTime := none
                     duration := none
                     errorMessage := none
                     createdAt := 0 }]
      timers := [1]
      nextId := 2 }

/-- Counterexample to C2 as stated: startExecution does not enforce
at-most-one in-flight run, so on a store where the case already has a
running run the call succeeds and leaves two runs with status running
linked to the case, falsifying the exactly-one clause. -/
theorem C2_counterexample_second_running_run :
    ((postRun c2Storage 0 5).2.testRuns.filter
        (fun tr => tr.status == "running" && tr.testCaseId == some 0)).length = 2 ∧
    ¬ ((postRun c2Storage 0 5).2.testRuns.filter
        (fun tr => tr.status == "running" && tr.testCaseId == some 0)).length = 1 := by
  constructor
  · rfl
  · decide

/-- Claim C2, amended: when the TestCase exists and has no TestRun with
status running before the call, startExecution succeeds, the store then
holds exactly one running TestRun linked to the case, namely the run
returned to the caller, and the case status reads running; when the
TestCase id does not resolve, the operation returns 404 and creates no
TestRun. (The unqualified exactly-one of the original claim fails when a
running run pre-exists, because startExecution never checks for one.) -/
theorem C2_start_execution_amended
    (s : Storage) (c : Nat) (tc : TestCase) (now : Int)
    (s2 : Storage) (d : Nat) (now2 : Int)
    (hc : s.testCases.find? (fun x => x.id == c) = some tc)
    (hnone : s.testRuns.filter
        (fun tr => tr.status == "running" && tr.testCaseId == some c) = [])
    (hd : s2.testCases.find? (fun x => x.id == d) = none) :
    (postRun s c now).1 = .ok (memCreateTestRun s (some tc.id) "running" now).1 ∧
    ((memCreateTestRun s (some tc.id) "running" now).1).status = "running" ∧
    ((memCreateTestRun s (some tc.id) "running" now).1).testCaseId = some c ∧
    (postRun s c now).2.testRuns.filter
        (fun tr => tr.status == "running" && tr.testCaseId == some c)
      = [(memCreateTestRun s (some tc.id) "running" now).1] ∧
    (memGetTestCase (postRun s c now).2 c).map TestCase.status = some "running" ∧
    postRun s2 d now2 = (.notFound, s2) := by
  have tcid : tc.id = c := by simpa using List.find?_some hc
  have htcmem : tc ∈ s.testCases := List.mem_of_find?_eq_some hc
  have hfind1 : (({ s with
      nextId := s.nextId + 1
      testRuns := (s.testRuns ++
        [(memCreateTestRun s (some tc.id) "running" now).1]) } : Storage)).testCases.find?
        (fun x => x.id == tc.id) = some tc := by
    show s.testCases.find? (fun x => x.id == tc.id) = some tc
    rw [tcid]
    exact hc
  refine ⟨?_, rfl, ?_, ?_, ?_, ?_⟩
  · unfold postRun
    rw [hc]
  · show some tc.id = some c
    rw [tcid]
  · have hruns : (postRun s c now).2.testRuns
        = s.testRuns ++ [(memCreateTestRun s (some tc.id) "running" now).1] := by
      unfold postRun
      rw [hc]
      show ((memUpdateTestCase
        { s with
            nextId := s.nextId + 1
            testRuns := (s.testRuns ++
              [(memCreateTestRun s (some tc.id) "running" now).1]) }
        tc.id { status := some "running" } now).2).testRuns
        = s.testRuns ++ [(memCreateTestRun s (some tc.id) "running" now).1]
      rw [memUpdateTestCase_testRuns]
    rw [hruns, List.filter_append, hnone, List.nil_append]
    show List.filter _ [(memCreateTestRun s (some tc.id) "running" now).1] = _
    simp [memCreateTestRun, tcid]
  · have hcases : (postRun s c now).2.testCases
        = s.testCases.map (fun x => if x.id == tc.id then
            applyCasePatch tc { status := some "running" } now else x) := by
      unfold postRun
      rw [hc]
      show ((memUpdateTestCase
        { s with
            nextId := s.nextId + 1
            testRuns := (s.testRuns ++
              [(memCreateTestRun s (some tc.id) "running" now).1]) }
        tc.id { status := some "running" } now).2).testCases = _
      rw [memUpdateTestCase_found_testCases _ _ _ _ tc hfind1]
    unfold memGetTestCase
    rw [hcases, tcid]
    rw [find?_map_replace TestCase.id s.testCases c
      (applyCasePatch tc { status := some "running" } now) ⟨tc, htcmem, tcid⟩
      (show tc.id = c from tcid)]
    rfl
  · unfold postRun
    rw [hd]

/-- Concrete pending test case with no runs, for the C2 witness. -/
def c2wCase : TestCase :=
  { id := 0
    name := some "Login"
    title := none
    suiteId := none
    priority := "medium"
    executionStatus := "not_executed"
    testSteps := none
    expectedResult := none
    module := none
    status := "pending"
    lastRun := none
    duration := none
    createdAt := 0
    updatedAt := 0 }

/-- Concrete store for the C2 witness. -/
def c2wStorage : Storage :=
  { emptyStorage with testCases := [c2wCase], nextId := 1 }

/-- Witness for the amended C2 at a concrete store with no in-flight run,
plus the 404 clause at an unresolvable id. -/
theorem C2_start_execution_amended_witness :
    (postRun c2wStorage 0 5).1
      = .ok (memCreateTestRun c2wStorage (some c2wCase.id) "running" 5).1 ∧
    ((memCreateTestRun c2wStorage (some c2wCase.id) "running" 5).1).status
      = "running" ∧
    ((memCreateTestRun c2wStorage (some c2wCase.id) "running" 5).1).testCaseId
      = some 0 ∧
    (postRun c2wStorage 0 5).2.testRuns.filter
        (fun tr => tr.status == "running" && tr.testCaseId == some 0)
      = [(memCreateTestRun c2wStorage (some c2wCase.id) "running" 5).1] ∧
    (memGetTestCase (postRun c2wStorage 0 5).2 0).map TestCase.status
      = some "running" ∧
    postRun c2wStorage 99 6 = (.notFound, c2wStorage) :=
  C2_start_execution_amended c2wStorage 0 c2wCase 5 c2wStorage 99 6 rfl rfl rfl

/-- The PUT execution handler never mutates the store on any path. -/
theorem putExecution_snd (s : Storage) (eid : Nat) (body : PutExecutionBody) :
    (putExecution s eid body).2 = s := by
  unfold putExecution
  cases hst : body.execution_status with
  | none => rfl
  | some st =>
    simp only []
    split
    · rfl
    · cases h : s.testExecutions.find? (fun e => e.id == eid) <;> rfl

/-- Concrete execution record for the putExecution witnesses. -/
def exExecution : TestExecution :=
  { id := 0
    testRunId := 0
    testCaseId := 0
    actualResult := none
    executionStatus := "not_executed"
    executedAt := none
    evidenceUrl := none }

/-- Concrete store holding one test execution. -/
def exStorage : Storage :=
  { emptyStorage with testExecutions := [exExecution], nextId := 1 }

/-- Claim C3, against the code as written: a validated fail request that
resolves an existing TestExecution is answered 500 (the handler evaluates
the undefined identifier executionUpdateData before any store write), so
no Defect is ever created and the defect table is unchanged —
contradicting the claim that exactly one new Defect is created. -/
theorem C3_fail_execution_creates_no_defect
    (s : Storage) (eid : Nat) (body : PutExecutionBody) (e : TestExecution)
    (hst : body.execution_status = some "fail")
    (he : s.testExecutions.find? (fun x => x.id == eid) = some e) :
    putExecution s eid body = (.internalError, s) ∧
    (putExecution s eid body).2.defects = s.defects := by
  have h1 : putExecution s eid body = (.internalError, s) := by
    unfold putExecution
    rw [hst]
    simp only [validExecutionStatuses, List.contains_cons, beq_self_eq_true,
      Bool.true_or, Bool.or_true, Bool.not_true, Bool.false_eq_true, if_false]
    rw [he]
  exact ⟨h1, by rw [h1]⟩

/-- Witness for C3 at the concrete execution store. -/
theorem C3_fail_execution_creates_no_defect_witness :
    putExecution exStorage 0
        { actual_result := some "Button missing", execution_status := some "fail" }
      = (.internalError, exStorage) ∧
    (putExecution exStorage 0
        { actual_result := some "Button missing", execution_status := some "fail" }).2.defects
      = exStorage.defects :=
  C3_fail_execution_creates_no_defect exStorage 0
    { actual_result := some "Button missing", execution_status := some "fail" }
    exExecution rfl rfl

/-- Claim C4, against the code as written: every request with a valid
executionStatus whose TestExecution resolves is answered 500, not 200,
and the TestExecution record is not updated (no executedAt stamp), again
because the handler evaluates the undefined identifier
executionUpdateData before performing any write. -/
theorem C4_valid_execution_update_gets_500
    (s : Storage) (eid : Nat) (body : PutExecutionBody) (st : String)
    (e : TestExecution)
    (hst : body.execution_status = some st)
    (hvalid : validExecutionStatuses.contains st = true)
    (he : s.testExecutions.find? (fun x => x.id == eid) = some e) :
    putExecution s eid body = (.internalError, s) ∧
    (putExecution s eid body).2.testExecutions = s.testExecutions := by
  have h1 : putExecution s eid body = (.internalError, s) := by
    unfold putExecution
    rw [hst]
    simp only [hvalid, Bool.not_true, Bool.false_eq_true, if_false]
    rw [he]
  exact ⟨h1, by rw [h1]⟩

/-- Witness for C4 with a passing outcome at the concrete store. -/
theorem C4_valid_execution_update_gets_500_witness :
    putExecution exStorage 0
        { actual_result := some "ok", execution_status := some "pass" }
      = (.internalError, exStorage) ∧
    (putExecution exStorage 0
        { actual_result := some "ok", execution_status := some "pass" }).2.testExecutions
      = exStorage.testExecutions :=
  C4_valid_execution_update_gets_500 exStorage 0
    { actual_result := some "ok", execution_status := some "pass" }
    "pass" exExecution rfl rfl rfl

/-- Claim C7. A PUT execution request whose executionStatus lies outside
the accepted set is rejected with 400 and performs no state mutation. -/
theorem C7_invalid_execution_status_rejected
    (s : Storage) (eid : Nat) (body : PutExecutionBody) (st : String)
    (hst : body.execution_status = some st)
    (hinvalid : validExecutionStatuses.contains st = false) :
    putExecution s eid body = (.badRequest, s) := by
  unfold putExecution
  rw [hst]
  simp only [hinvalid, Bool.not_false, if_true]

/-- Witness for C7 at an out-of-vocabulary status value. -/
theorem C7_invalid_execution_status_rejected_witness :
    putExecution exStorage 0 { execution_status := some "bogus" }
      = (.badRequest, exStorage) :=
  C7_invalid_execution_status_rejected exStorage 0
    { execution_status := some "bogus" } "bogus" rfl rfl

/-- Claim C10. Error atomicity of the PUT execution endpoint: whenever
the response is not 200, the store is unchanged — no TestExecution field
is modified and no Defect is inserted. (In the code as written this holds
on every path, since the handler faults before its first write.) -/
theorem C10_put_execution_error_atomicity
    (s : Storage) (eid : Nat) (body : PutExecutionBody)
    (h : (putExecution s eid body).1 ≠ .ok) :
    (putExecution s eid body).2 = s ∧
    (putExecution s eid body).2.testExecutions = s.testExecutions ∧
    (putExecution s eid body).2.defects = s.defects := by
  refine ⟨putExecution_snd s eid body, ?_, ?_⟩ <;>
    rw [putExecution_snd s eid body]

/-- Witness for C10: a 404 response at the concrete store. -/
theorem C10_put_execution_error_atomicity_witness :
    (putExecution exStorage 7 { execution_status := some "pass" }).2 = exStorage ∧
    (putExecution exStorage 7
        { execution_status := some "pass" }).2.testExecutions
      = exStorage.testExecutions ∧
    (putExecution exStorage 7 { execution_status := some "pass" }).2.defects
      = exStorage.defects :=
  C10_put_execution_error_atomicity exStorage 7
    { execution_status := some "pass" } (by decide)

/-- Concrete running run whose startTime is 1000, for the C5
counterexample. -/
def c5Run : TestRun :=
  { id := 1
    testCaseId := none
    status := "running"
    startTime := 1000
    endTime := none
    duration := none
    errorMessage := none
    createdAt := 0 }

/-- Concrete store for the C5 counterexample. -/
def c5Storage : Storage :=
  { emptyStorage with testRuns := [c5Run], nextId := 2 }

/-- Store after a manual PUT run carrying an endTime earlier than the
startTime of the run. -/
def c5After1 : Storage :=
  (putRun c5Storage 1 { status := "passed", endTime := some 500 } 2000).2

/-- Store after a second manual PUT run that omits the endTime key. -/
def c5After2 : Storage :=
  (putRun c5After1 1 { status := "failed" } 3000).2

/-- Counterexample to C5 as stated: the manual PUT run endpoint accepts
an endTime earlier than startTime, producing a negative duration, and a
later PUT without an endTime key unsets the stored endTime while the
stale duration survives — falsifying non-negativity, endTime
persistence, and the duration equation for completed runs. -/
theorem C5_counterexample_put_run :
    (memGetTestRun c5After1 1).map TestRun.endTime = some (some 500) ∧
    (memGetTestRun c5After1 1).map TestRun.duration = some (some (-500)) ∧
    (-500 : Int) < 0 ∧
    (memGetTestRun c5After2 1).map TestRun.status = some "failed" ∧
    (memGetTestRun c5After2 1).map TestRun.endTime = some none ∧
    (memGetTestRun c5After2 1).map TestRun.duration = some (some (-500)) := by
  refine ⟨rfl, rfl, by decide, rfl, rfl, rfl⟩

/-- Claim C5, amended: whenever an endTime is written, the stored
duration equals endTime minus startTime exactly, in milliseconds; for a
run completed by the scheduler callback this endTime is the callback
time, so under a monotone clock (callback time at or after startTime) the
duration is non-negative; the manual PUT run endpoint satisfies the same
duration equation for the endTime it supplies, but it can violate
non-negativity (endTime before startTime) and can unset endTime (request
without the key), as the counterexample shows. -/
theorem C5_duration_amended
    (s : Storage) (rid cid : Nat) (r : TestRun) (b : Bool) (et now : Int)
    (s2 : Storage) (rid2 : Nat) (r2 : TestRun) (body : PutRunBody) (e : Int)
    (now2 : Int)
    (hr : memGetTestRun s rid = some r)
    (hrun : r.status = "running")
    (hmono : r.startTime ≤ now)
    (hr2 : memGetTestRun s2 rid2 = some r2)
    (hvalid : putRunStatuses.contains body.status = true)
    (he : body.endTime = some e) :
    (memGetTestRun (completionCallback s rid cid b et now) rid).map TestRun.endTime
      = some (some now) ∧
    (memGetTestRun (completionCallback s rid cid b et now) rid).map TestRun.duration
      = some (some (now - r.startTime)) ∧
    0 ≤ now - r.startTime ∧
    (memGetTestRun (putRun s2 rid2 body now2).2 rid2).map TestRun.endTime
      = some (some e) ∧
    (memGetTestRun (putRun s2 rid2 body now2).2 rid2).map TestRun.duration
      = some (some (e - r2.startTime)) := by
  obtain ⟨bst, bet, berr⟩ := body
  simp only [PutRunBody.endTime] at he
  subst he
  simp only [PutRunBody.status] at hvalid
  have hrfind : s.testRuns.find? (fun tr => tr.id == rid) = some r := hr
  have hid : r.id = rid := by simpa using List.find?_some hrfind
  have hmem : r ∈ s.testRuns := List.mem_of_find?_eq_some hrfind
  have hcbruns : (completionCallback s rid cid b et now).testRuns
      = s.testRuns.map (fun tr => if tr.id == rid then
          applyRunPatch r
            { status := some (if b then "passed" else "failed")
              endTime := some (some now)
              errorMessage := some (if b then none
                else some "Test execution failed due to assertion error") }
          else tr) := by
    unfold completionCallback
    rw [hr]
    simp only [hrun, bne_self_eq_false, Bool.false_eq_true, if_false]
    rw [memUpdateTestRun_found s rid _ r hrfind]
    show ((memUpdateTestCase _ cid _ now).2).testRuns = _
    rw [memUpdateTestCase_testRuns]
  have hget : memGetTestRun (completionCallback s rid cid b et now) rid
      = some (applyRunPatch r
          { status := some (if b then "passed" else "failed")
            endTime := some (some now)
            errorMessage := some (if b then none
              else some "Test execution failed due to assertion error") }) := by
    unfold memGetTestRun
    rw [hcbruns]
    exact find?_map_replace TestRun.id s.testRuns rid _ ⟨r, hmem, hid⟩ hid
  have hrfind2 : s2.testRuns.find? (fun tr => tr.id == rid2) = some r2 := hr2
  have hid2 : r2.id = rid2 := by simpa using List.find?_some hrfind2
  have hmem2 : r2 ∈ s2.testRuns := List.mem_of_find?_eq_some hrfind2
  have hputruns : ((putRun s2 rid2
      { status := bst, endTime := some e, errorMessage := berr } now2).2).testRuns
      = s2.testRuns.map (fun tr => if tr.id == rid2 then
          applyRunPatch r2
            { status := some bst
              endTime := some (some e)
              errorMessage := berr.map some }
          else tr) := by
    unfold putRun
    simp only [hvalid, Bool.not_true, Bool.false_eq_true, if_false]
    rw [memUpdateTestRun_found s2 rid2 _ r2 hrfind2]
    cases htc : (applyRunPatch r2
        { status := some bst
          endTime := some (some e)
          errorMessage := berr.map some }).testCaseId with
    | none =>
      simp only [htc]
    | some tcId =>
      simp only [htc]
      show ((memUpdateTestCase _ tcId _ now2).2).testRuns = _
      rw [memUpdateTestCase_testRuns]
  have hget2 : memGetTestRun ((putRun s2 rid2
      { status := bst, endTime := some e, errorMessage := berr } now2).2) rid2
      = some (applyRunPatch r2
          { status := some bst
            endTime := some (some e)
            errorMessage := berr.map some }) := by
    unfold memGetTestRun
    rw [hputruns]
    exact find?_map_replace TestRun.id s2.testRuns rid2 _ ⟨r2, hmem2, hid2⟩ hid2
  refine ⟨?_, ?_, by omega, ?_, ?_⟩
  · rw [hget]
    rfl
  · rw [hget]
    rfl
  · rw [hget2]
    rfl
  · rw [hget2]
    rfl

/-- Witness for the amended C5: a scheduler completion at time 1500 on a
run started at 1000, and a manual PUT run with endTime 2500. -/
theorem C5_duration_amended_witness :
    (memGetTestRun (completionCallback c5Storage 1 0 false 700 1500) 1).map
        TestRun.endTime = some (some 1500) ∧
    (memGetTestRun (completionCallback c5Storage 1 0 false 700 1500) 1).map
        TestRun.duration = some (some (1500 - c5Run.startTime)) ∧
    0 ≤ 1500 - c5Run.startTime ∧
    (memGetTestRun
        (putRun c5Storage 1 { status := "passed", endTime := some 2500 } 99).2
        1).map TestRun.endTime = some (some 2500) ∧
    (memGetTestRun
        (putRun c5Storage 1 { status := "passed", endTime := some 2500 } 99).2
        1).map TestRun.duration = some (some (2500 - c5Run.startTime)) :=
  C5_duration_amended c5Storage 1 0 c5Run false 700 1500 c5Storage 1 c5Run
    { status := "passed", endTime := some 2500 } 2500 99
    rfl rfl (by decide) rfl rfl rfl

/-- Erasure of the updatedAt stamp, used to compare stores up to that
timestamp. -/
def eraseUpdatedAt (tc : TestCase) : TestCase :=
  { tc with updatedAt := 0 }

/-- Concrete pending case with no runs for the C6 counterexample. -/
def c6Case : TestCase :=
  { id := 0
    name := some "Login"
    title := none
    suiteId := none
    priority := "medium"
    executionStatus := "not_executed"
    testSteps := none
    expectedResult := none
    module := none
    status := "pending"
    lastRun := none
    duration := none
    createdAt := 0
    updatedAt := 0 }

/-- Concrete store for C6. -/
def c6Storage : Storage :=
  { emptyStorage with testCases := [c6Case], nextId := 1 }

/-- Counterexample to C6 as stated: two consecutive stops at times 5 and
7 both succeed and both leave the status pending, but the stores are not
equal — the second call re-stamps the updatedAt timestamp of the case. -/
theorem C6_counterexample_updatedAt_restamped :
    (postStop (postStop c6Storage 0 5).2 0 7).2 ≠ (postStop c6Storage 0 5).2 ∧
    (memGetTestCase (postStop (postStop c6Storage 0 5).2 0 7).2 0).map
        TestCase.updatedAt = some 7 ∧
    (memGetTestCase (postStop c6Storage 0 5).2 0).map TestCase.updatedAt
      = some 5 := by
  refine ⟨by decide, rfl, rfl⟩

theorem postStop_norun (s : Storage) (c : Nat) (tc : TestCase) (t : Int)
    (hc : s.testCases.find? (fun x => x.id == c) = some tc)
    (hfn : (memGetTestRunsByTestCase s c).find? (fun tr => tr.status == "running")
      = none) :
    postStop s c t = (.ok,
      { s with testCases := (s.testCases.map (fun x => if x.id == c then
          applyCasePatch tc { status := some "pending" } t else x)) }) := by
  have tcid : tc.id = c := by simpa using List.find?_some hc
  unfold postStop
  rw [hc]
  simp only [tcid]
  rw [hfn]
  rw [memUpdateTestCase_nostamp s c { status := some "pending" } t tc hc rfl]

/-- Claim C6, amended: stopExecution on an existing TestCase with no
in-flight run succeeds and resets the status to pending, and a second
call does so again; the store after the second call equals the store
after the first except that the updatedAt stamp of the case is refreshed
(both calls at the same instant give literally equal stores). The
original unqualified state-equality fails only on that updatedAt stamp,
as the counterexample shows. -/
theorem C6_stop_idempotent_amended
    (s : Storage) (c : Nat) (tc : TestCase) (t1 t2 : Int)
    (hc : s.testCases.find? (fun x => x.id == c) = some tc)
    (hnorun : ∀ tr ∈ s.testRuns, (tr.testCaseId == some c) = true →
      tr.status ≠ "running") :
    (postStop s c t1).1 = .ok ∧
    (memGetTestCase (postStop s c t1).2 c).map TestCase.status = some "pending" ∧
    (postStop (postStop s c t1).2 c t2).1 = .ok ∧
    (memGetTestCase (postStop (postStop s c t1).2 c t2).2 c).map TestCase.status
      = some "pending" ∧
    (postStop (postStop s c t1).2 c t2).2.testRuns
      = (postStop s c t1).2.testRuns ∧
    (postStop (postStop s c t1).2 c t2).2.activity
      = (postStop s c t1).2.activity ∧
    (postStop (postStop s c t1).2 c t2).2.defects = (postStop s c t1).2.defects ∧
    (postStop (postStop s c t1).2 c t2).2.timers = (postStop s c t1).2.timers ∧
    (postStop (postStop s c t1).2 c t2).2.nextId = (postStop s c t1).2.nextId ∧
    (postStop (postStop s c t1).2 c t2).2.testCases.map eraseUpdatedAt
      = (postStop s c t1).2.testCases.map eraseUpdatedAt ∧
    (t1 = t2 → (postStop (postStop s c t1).2 c t2).2 = (postStop s c t1).2) := by
  have tcid : tc.id = c := by simpa using List.find?_some hc
  have htcmem : tc ∈ s.testCases := List.mem_of_find?_eq_some hc
  have hfn : (memGetTestRunsByTestCase s c).find?
      (fun tr => tr.status == "running") = none := by
    rw [List.find?_eq_none]
    intro x hx
    have hx1 : x ∈ s.testRuns.filter (fun tr => tr.testCaseId == some c) :=
      mem_sortRunsByCreatedDesc.mp hx
    have hx2 : x ∈ s.testRuns := (List.mem_filter.mp hx1).1
    have hx3 : (x.testCaseId == some c) = true := (List.mem_filter.mp hx1).2
    have hx4 := hnorun x hx2 hx3
    simp [hx4]
  have hpost1 := postStop_norun s c tc t1 hc hfn
  have hS1 : (postStop s c t1).2
      = { s with testCases := (s.testCases.map (fun x => if x.id == c then
          applyCasePatch tc { status := some "pending" } t1 else x)) } := by
    rw [hpost1]
  have hu1id : (applyCasePatch tc { status := some "pending" } t1).id = c := tcid
  have hu2id : (applyCasePatch (applyCasePatch tc { status := some "pending" } t1)
      { status := some "pending" } t2).id = c := hu1id
  have hfind1raw : (s.testCases.map (fun x => if x.id == c then
        applyCasePatch tc { status := some "pending" } t1 else x)).find?
        (fun x => x.id == c)
      = some (applyCasePatch tc { status := some "pending" } t1) :=
    find?_map_replace TestCase.id s.testCases c _ ⟨tc, htcmem, tcid⟩ hu1id
  have hfind1 : (({ s with testCases := (s.testCases.map (fun x => if x.id == c then
        applyCasePatch tc { status := some "pending" } t1 else x)) } : Storage)).testCases.find?
        (fun x => x.id == c)
      = some (applyCasePatch tc { status := some "pending" } t1) := hfind1raw
  have hfn2 : (memGetTestRunsByTestCase
      ({ s with testCases := (s.testCases.map (fun x => if x.id == c then
          applyCasePatch tc { status := some "pending" } t1 else x)) } : Storage) c).find?
        (fun tr => tr.status == "running") = none := hfn
  have hpost2 := postStop_norun
    ({ s with testCases := (s.testCases.map (fun x => if x.id == c then
        applyCasePatch tc { status := some "pending" } t1 else x)) } : Storage) c
    (applyCasePatch tc { status := some "pending" } t1) t2 hfind1 hfn2
  have hS2 : (postStop (postStop s c t1).2 c t2).2
      = { s with testCases := ((s.testCases.map (fun x => if x.id == c then
          applyCasePatch tc { status := some "pending" } t1 else x)).map
          (fun x => if x.id == c then
            applyCasePatch (applyCasePatch tc { status := some "pending" } t1)
              { status := some "pending" } t2 else x)) } := by
    rw [hS1, hpost2]
  have hmem1 : applyCasePatch tc { status := some "pending" } t1
      ∈ s.testCases.map (fun x => if x.id == c then
          applyCasePatch tc { status := some "pending" } t1 else x) := by
    have hftc : (fun x => if x.id == c then
        applyCasePatch tc { status := some "pending" } t1 else x) tc
        = applyCasePatch tc { status := some "pending" } t1 := by
      simp [tcid]
    have hmm := List.mem_map_of_mem (fun x => if x.id == c then
        applyCasePatch tc { status := some "pending" } t1 else x) htcmem
    rwa [hftc] at hmm
  have hfind2raw : ((s.testCases.map (fun x => if x.id == c then
        applyCasePatch tc { status := some "pending" } t1 else x)).map
        (fun x => if x.id == c then
          applyCasePatch (applyCasePatch tc { status := some "pending" } t1)
            { status := some "pending" } t2 else x)).find?
        (fun x => x.id == c)
      = some (applyCasePatch (applyCasePatch tc { status := some "pending" } t1)
          { status := some "pending" } t2) :=
    find?_map_replace TestCase.id _ c _
      ⟨applyCasePatch tc { status := some "pending" } t1, hmem1, hu1id⟩ hu2id
  refine ⟨by rw [hpost1], ?_, ?_, ?_, ?_, ?_, ?_, ?_, ?_, ?_, ?_⟩
  · unfold memGetTestCase
    rw [hS1]
    show Option.map TestCase.status
        ((s.testCases.map (fun x => if x.id == c then
            applyCasePatch tc { status := some "pending" } t1 else x)).find?
          (fun x => x.id == c)) = some "pending"
    rw [hfind1raw]
    rfl
  · rw [hS1, hpost2]
  · unfold memGetTestCase
    rw [hS2]
    show Option.map TestCase.status
        (((s.testCases.map (fun x => if x.id == c then
            applyCasePatch tc { status := some "pending" } t1 else x)).map
            (fun x => if x.id == c then
              applyCasePatch (applyCasePatch tc { status := some "pending" } t1)
                { status := some "pending" } t2 else x)).find?
          (fun x => x.id == c)) = some "pending"
    rw [hfind2raw]
    rfl
  · rw [hS2, hS1]
  · rw [hS2, hS1]
  · rw [hS2, hS1]
  · rw [hS2, hS1]
  · rw [hS2, hS1]
  · rw [hS2, hS1]
    show ((s.testCases.map (fun x => if x.id == c then
        applyCasePatch tc { status := some "pending" } t1 else x)).map
        (fun x => if x.id == c then
          applyCasePatch (applyCasePatch tc { status := some "pending" } t1)
            { status := some "pending" } t2 else x)).map eraseUpdatedAt
      = (s.testCases.map (fun x => if x.id == c then
          applyCasePatch tc { status := some "pending" } t1 else x)).map eraseUpdatedAt
    rw [List.map_map, List.map_map, List.map_map]
    apply List.map_congr_left
    intro x hx
    by_cases hxc : (x.id == c) = true
    · simp only [Function.comp_apply, hxc, if_true]
      have h1 : ((applyCasePatch tc { status := some "pending" } t1).id == c) = true := by
        simp [hu1id]
      simp only [h1, if_true]
      rfl
    · simp only [Function.comp_apply, hxc]
      simp [hxc]
  · intro ht
    subst ht
    rw [hS2, hS1]
    have hcollapse : ((s.testCases.map (fun x => if x.id == c then
        applyCasePatch tc { status := some "pending" } t1 else x)).map
        (fun x => if x.id == c then
          applyCasePatch (applyCasePatch tc { status := some "pending" } t1)
            { status := some "pending" } t1 else x))
        = s.testCases.map (fun x => if x.id == c then
            applyCasePatch tc { status := some "pending" } t1 else x) := by
      rw [List.map_map]
      apply List.map_congr_left
      intro x hx
      by_cases hxc : (x.id == c) = true
      · simp only [Function.comp_apply, hxc, if_true]
        have h1 : ((applyCasePatch tc { status := some "pending" } t1).id == c) = true := by
          simp [hu1id]
        simp only [h1, if_true]
        rfl
      · simp only [Function.comp_apply, hxc]
        simp [hxc]
    rw [hcollapse]

/-- Witness for the amended C6: two stops at times 5 and 7 on the
concrete store with no runs. -/
theorem C6_stop_idempotent_amended_witness :
    (postStop c6Storage 0 5).1 = .ok ∧
    (memGetTestCase (postStop c6Storage 0 5).2 0).map TestCase.status
      = some "pending" ∧
    (postStop (postStop c6Storage 0 5).2 0 7).1 = .ok ∧
    (memGetTestCase (postStop (postStop c6Storage 0 5).2 0 7).2 0).map
        TestCase.status = some "pending" ∧
    (postStop (postStop c6Storage 0 5).2 0 7).2.testRuns
      = (postStop c6Storage 0 5).2.testRuns ∧
    (postStop (postStop c6Storage 0 5).2 0 7).2.activity
      = (postStop c6Storage 0 5).2.activity ∧
    (postStop (postStop c6Storage 0 5).2 0 7).2.defects
      = (postStop c6Storage 0 5).2.defects ∧
    (postStop (postStop c6Storage 0 5).2 0 7).2.timers
      = (postStop c6Storage 0 5).2.timers ∧
    (postStop (postStop c6Storage 0 5).2 0 7).2.nextId
      = (postStop c6Storage 0 5).2.nextId ∧
    (postStop (postStop c6Storage 0 5).2 0 7).2.testCases.map eraseUpdatedAt
      = (postStop c6Storage 0 5).2.testCases.map eraseUpdatedAt ∧
    ((5 : Int) = 7 → (postStop (postStop c6Storage 0 5).2 0 7).2
      = (postStop c6Storage 0 5).2) :=
  C6_stop_idempotent_amended c6Storage 0 c6Case 5 7 rfl (by decide)

/-- Concrete case whose lastRun is unset, for the C8 counterexample. -/
def c8Case : TestCase :=
  { id := 0
    name := some "Login"
    title := none
    suiteId := none
    priority := "medium"
    executionStatus := "not_executed"
    testSteps := none
    expectedResult := none
    module := none
    status := "pending"
    lastRun := none
    duration := none
    createdAt := 0
    updatedAt := 0 }

/-- Concrete store for C8. -/
def c8Storage : Storage :=
  { emptyStorage with testCases := [c8Case], nextId := 1 }

/-- Counterexample to C8 as stated: a partial that touches only
executionStatus does not stamp lastRun in either store implementation —
the updated record still has lastRun null, where the claim demands
lastRun = now. -/
theorem C8_counterexample_executionStatus_not_stamped :
    ((memUpdateTestCase c8Storage 0 { executionStatus := some "pass" } 5).1).map
        TestCase.executionStatus = some "pass" ∧
    ((memUpdateTestCase c8Storage 0 { executionStatus := some "pass" } 5).1).map
        TestCase.lastRun = some none ∧
    ((dbUpdateTestCase c8Storage 0 { executionStatus := some "pass" } 5).1).map
        TestCase.lastRun = some none ∧
    ¬ ((memUpdateTestCase c8Storage 0 { executionStatus := some "pass" } 5).1).map
        TestCase.lastRun = some (some 5) := by
  refine ⟨rfl, rfl, rfl, by decide⟩

/-- Claim C8, amended: both updateTestCase implementations stamp
lastRun = now exactly when the incoming partial sets status to one of
running, passed, failed; a partial that touches executionStatus (or any
other field) without such a status leaves lastRun unchanged. -/
theorem C8_lastRun_stamp_amended
    (s : Storage) (c : Nat) (p : TestCasePatch) (now : Int) (tc : TestCase)
    (hc : s.testCases.find? (fun x => x.id == c) = some tc) :
    (memUpdateTestCase s c p now).1 = some (applyCasePatch tc p now) ∧
    (dbUpdateTestCase s c p now).1 = some (applyCasePatch tc p now) ∧
    (applyCasePatch tc p now).lastRun
      = (if stampsLastRun p then some now else tc.lastRun) ∧
    stampsLastRun p
      = (match p.status with
         | some st => legacyRunStatuses.contains st
         | none => false) := by
  refine ⟨memUpdateTestCase_fst s c p now tc hc, ?_, ?_, rfl⟩
  · unfold dbUpdateTestCase
    rw [hc]
  · by_cases h : stampsLastRun p
    · simp [applyCasePatch, h]
    · simp [applyCasePatch, h]

/-- Witness for the amended C8: a partial setting status to passed
stamps lastRun, at the concrete store. -/
theorem C8_lastRun_stamp_amended_witness :
    (memUpdateTestCase c8Storage 0 { status := some "passed" } 5).1
      = some (applyCasePatch c8Case { status := some "passed" } 5) ∧
    (dbUpdateTestCase c8Storage 0 { status := some "passed" } 5).1
      = some (applyCasePatch c8Case { status := some "passed" } 5) ∧
    (applyCasePatch c8Case { status := some "passed" } 5).lastRun
      = (if stampsLastRun { status := some "passed" } then some 5
         else c8Case.lastRun) ∧
    stampsLastRun ({ status := some "passed" } : TestCasePatch)
      = (match ({ status := some "passed" } : TestCasePatch).status with
         | some st => legacyRunStatuses.contains st
         | none => false) :=
  C8_lastRun_stamp_amended c8Storage 0 { status := some "passed" } 5 c8Case rfl

/-- Insert payload for the C9 counterexample history. -/
def c9Input : InsertTestCase :=
  { name := some "A", status := some "pending" }

/-- Counterexample to C9 as stated: running the same one-operation
logical history (create one test case) against both implementations
yields different recent-activity feeds — the in-memory store logs a
test_created entry, the relational store derives its feed only from
TestRuns and returns nothing. -/
theorem C9_counterexample_activity_feeds_differ :
    (memGetRecentActivity (memCreateTestCase emptyStorage c9Input 0 100).2).length
      = 1 ∧
    (dbGetRecentActivity (dbCreateTestCase emptyStorage c9Input 0).2).length
      = 0 ∧
    memGetRecentActivity (memCreateTestCase emptyStorage c9Input 0 100).2
      ≠ dbGetRecentActivity (dbCreateTestCase emptyStorage c9Input 0).2 := by
  refine ⟨rfl, rfl, by decide⟩

theorem foldl_append_map {α β : Type} (f : α → β) (l : List α) (acc : List β) :
    l.foldl (fun r x => r ++ [f x]) acc = acc ++ l.map f := by
  induction l generalizing acc with
  | nil => simp
  | cons a as ih => simp [ih]

/-- Claim C9, amended: on any shared store state the two implementations
agree on the dashboard statistics and on the per-suite statistics
(counts and pass rates), but they are not equivalent on the
recent-activity feed, which the in-memory store keeps as an event log
(including test_created entries) while the relational store reconstructs
it solely from the 20 most recent TestRuns. -/
theorem C9_stats_agree_amended (s : Storage) :
    memGetDashboardStats s = dbGetDashboardStats s ∧
    memGetTestSuitesWithStats s = dbGetTestSuitesWithStats s := by
  constructor
  · rfl
  · unfold memGetTestSuitesWithStats dbGetTestSuitesWithStats
    rw [foldl_append_map]
    rw [List.nil_append]

end TestSphere
